import Mathlib

/-!
Shallow embedding of `git-smartmv` (`src/git_smartmv/__init__.py`), a
command-line tool that moves files with either `git mv` or plain `mv`,
depending on whether each source is a tracked path of the same repository
as the destination.  The external world (filesystem predicates, the git
backend, path normalisation, the user's answers at the two confirmation
prompts, and the exit status of the spawned move commands) is modelled by
an `Env` record of functions; the program itself is embedded as pure
functions mirroring the five `_stepN` methods of class `Smartmv`.
-/

namespace GitSmartmv

/-- An argument vector for one external command invocation. -/
abbrev Cmd := List String

/-- The external world as observed by one invocation of the program.

* `isDir p` models `Path(p).is_dir()`;
* `pathExists p` models `Path(p).exists()` (follows symlinks, so a broken
  symbolic link does not "exist");
* `isSymlink p` models `Path(p).is_symlink()`;
* `gitToplevel p` models `Smartmv.get_git_toplevel(p)`: `some root` on
  success, `none` when the method raises `GitError` (path missing, git
  reports no repository, empty output, or reported root missing);
* `tracked p` models `Smartmv.is_tracked_by_git(p)`;
* `absolute p` models `str(Path(p).absolute())` and `parent p` models
  `str(Path(p).parent)`;
* `subPaths p` models the list `[str(q) for q in Path(p).glob("**/*")]`;
* `runSuccess c` is `true` when `subprocess.check_call(c)` returns without
  raising `CalledProcessError`;
* `confirmThreshold` / `confirmExecute` are the user's (eventual y/n)
  answers at the two `Smartmv.confirm` prompts. -/
structure Env where
  isDir : String → Bool
  pathExists : String → Bool
  isSymlink : String → Bool
  gitToplevel : String → Option String
  tracked : String → Bool
  absolute : String → String
  parent : String → String
  subPaths : String → List String
  runSuccess : Cmd → Bool
  confirmThreshold : Bool
  confirmExecute : Bool

/-- The parsed command-line options of `Smartmv._parse_args`:
the positional operands and the four option flags. -/
structure Args where
  files : List String
  verbose : Bool
  force : Bool
  nonInteractive : Bool
  warningThreshold : Int

/-- The ways the program terminates early via `sys.exit` (or via the
argument parser).  `parserMissingArgs` is argparse rejecting an empty
operand list for the required `nargs="+"` positional argument, which per
argparse semantics prints a usage error and exits with status 2. -/
inductive ExitKind where
  | parserMissingArgs : ExitKind
  | missingDest : String → ExitKind
  | targetNotDir : String → ExitKind
  | cannotStat : String → ExitKind
  | declinedThreshold : ExitKind
  | declinedExecute : ExitKind
deriving DecidableEq

/-- The process exit status of each early termination. -/
def ExitKind.code : ExitKind → Nat
  | .parserMissingArgs => 2
  | _ => 1

/-- The program name used in messages: `Path(sys.argv[0]).name`, which is
`git-smartmv` under the installed entry point. -/
def exeName : String := "git-smartmv"

/-- The diagnostic message printed for each early termination, as built by
the corresponding `print(...)` call (the two declined confirmations print
nothing; argparse prints its own usage error). -/
def ExitKind.message : ExitKind → String
  | .parserMissingArgs => exeName ++ ": error: the following arguments are required: args"
  | .missingDest f => exeName ++ ": missing destination file operand after \x27" ++ f ++ "\x27"
  | .targetNotDir d => exeName ++ ": target \x27" ++ d ++ "\x27 is not a directory"
  | .cannotStat p => exeName ++ ": cannot stat \x27" ++ p ++ "\x27: No such file or directory"
  | .declinedThreshold => ""
  | .declinedExecute => ""

/-- Truthiness-and-equality test `cwd and cwd == other` on optional
repository roots: Python `None` is falsy and a `Path` is always truthy. -/
def cwdIs (cwd other : Option String) : Bool :=
  cwd.isSome && decide (cwd = other)

/-- Argument validation of `Smartmv._parse_args`: argparse demands at
least one positional operand (else usage error, exit status 2), and the
method then demands at least two, else it prints
`missing destination file operand after '<first>'` and exits 1. -/
def parseArgs (args : Args) : Except ExitKind Unit :=
  if args.files.length = 0 then .error .parserMissingArgs
  else if args.files.length < 2 then .error (.missingDest (args.files.headD ""))
  else .ok ()

/-- Output of `Smartmv._step1_parse_paths`: the source operands, the
destination operand, and the destination's effective repository root. -/
structure Step1Out where
  sourcePaths : List String
  destPath : String
  destGitRepo : Option String
deriving DecidableEq

/-- `Smartmv._step1_parse_paths`: splits the operands into sources and
destination; if more than one source is given the destination must be an
existing directory (else `target '<dest>' is not a directory`, exit 1);
resolves the destination's repository root (of the destination itself when
it exists, else of the parent of its absolute form), tolerating failure;
then requires every source to exist as a file, directory or symbolic link,
failing at the first one that does not with
`cannot stat '<path>': No such file or directory` and exit 1. -/
def step1ParsePaths (env : Env) (args : Args) : Except ExitKind Step1Out :=
  let sources := args.files.dropLast
  let dest := args.files.getLastD ""
  if 1 < sources.length ∧ env.isDir dest = false then
    .error (.targetNotDir dest)
  else
    let destGitRepo :=
      if env.pathExists dest then env.gitToplevel dest
      else env.gitToplevel (env.parent (env.absolute dest))
    match sources.find? (fun p => !(env.isSymlink p || env.pathExists p)) with
    | some p => .error (.cannotStat p)
    | none => .ok ⟨sources, dest, destGitRepo⟩

/-- Loop body of `Smartmv._step2_classify_paths` for one source path:
returns `(true, recorded)` when the path goes to the `git mv` group
(`recorded` being the path as given when the working-directory repository
equals the source's repository, else its absolute form), and
`(false, path)` when it goes to the plain `mv` group.  The `git mv` group
is chosen exactly when `get_git_toplevel` succeeds, the path is tracked,
and the source's repository root equals the destination's (a `None`
destination root never compares equal to a real root). -/
def classifyOne (env : Env) (cwd destRepo : Option String) (p : String) :
    Bool × String :=
  match env.gitToplevel p with
  | none => (false, p)
  | some repo =>
    if env.tracked p && decide ((some repo : Option String) = destRepo) then
      if cwdIs cwd (some repo) then (true, p) else (true, env.absolute p)
    else (false, p)

/-- The two groups built by `Smartmv._step2_classify_paths`, keyed
`"git mv"` and `"mv"` in the Python dict. -/
structure Classified where
  gitmv : List String
  mv : List String
deriving DecidableEq

/-- `Smartmv._step2_classify_paths`: classifies each source in operand
order, appending the recorded form to the `git mv` group or the path as
given to the `mv` group. -/
def step2Classify (env : Env) (cwd destRepo : Option String) :
    List String → Classified
  | [] => ⟨[], []⟩
  | p :: rest =>
    let c := classifyOne env cwd destRepo p
    let r := step2Classify env cwd destRepo rest
    if c.1 then ⟨c.2 :: r.gitmv, r.mv⟩ else ⟨r.gitmv, p :: r.mv⟩

/-- The base of the `git mv` command built in `_step3_gen_mv_commands`:
when the destination repository root is known, `git [-C <root>] mv -f`,
the `-C` pair being dropped exactly when the working-directory repository
is truthy and equals the destination's (`specify_repo = False`); when no
destination repository root is known, the fallback `git mv`. -/
def gitmvBase (cwd destRepo : Option String) : Cmd :=
  match destRepo with
  | some d =>
    ["git"] ++ (if cwdIs cwd (some d) then [] else ["-C", d]) ++ ["mv", "-f"]
  | none => ["git", "mv"]

/-- The complete `git mv` command of `_step3_gen_mv_commands`: base, then
`--verbose` when the verbose option is set, then the group's recorded
source paths, then the destination — as given when the working-directory
repository is truthy and equals the destination's, else absolute.  The
force option is never consulted for this command. -/
def gitmvCommand (env : Env) (cwd destRepo : Option String) (verbose : Bool)
    (srcs : List String) (dest : String) : Cmd :=
  gitmvBase cwd destRepo
    ++ (if verbose then ["--verbose"] else [])
    ++ srcs
    ++ [if cwdIs cwd destRepo then dest else env.absolute dest]

/-- The complete plain `mv` command of `_step3_gen_mv_commands`: `mv`,
then `--verbose` when the verbose option is set, then `-f` when the force
option is set, then the group's source paths, then the destination exactly
as supplied. -/
def mvCommand (verbose force : Bool) (srcs : List String) (dest : String) :
    Cmd :=
  ["mv"]
    ++ (if verbose then ["--verbose"] else [])
    ++ (if force then ["-f"] else [])
    ++ srcs
    ++ [dest]

/-- `Smartmv._step3_gen_mv_commands`: one command per non-empty group,
inserted into the (insertion-ordered) dict in the fixed order
`"git mv"` then `"mv"`; an empty group contributes nothing. -/
def step3GenMvCommands (env : Env) (cwd destRepo : Option String)
    (verbose force : Bool) (cls : Classified) (dest : String) :
    List (String × Cmd) :=
  (if cls.gitmv.isEmpty then []
   else [("git mv", gitmvCommand env cwd destRepo verbose cls.gitmv dest)])
  ++ (if cls.mv.isEmpty then []
      else [("mv", mvCommand verbose force cls.mv dest)])

/-- The non-directory entries a source path contributes to the warning
count of `_step4_warn_if_file_count_exceeds_threshold`: for a directory,
its recursive glob results that are not directories; otherwise the source
itself. -/
def affectedOf (env : Env) (p : String) : List String :=
  if env.isDir p then (env.subPaths p).filter (fun q => !env.isDir q) else [p]

/-- Concatenation of `affectedOf` over all source paths, in order. -/
def affectedFiles (env : Env) : List String → List String
  | [] => []
  | p :: rest => affectedOf env p ++ affectedFiles env rest

/-- Python `set.add`: insert the element unless already present (the list
models the set up to ordering; only membership is ever used). -/
def setAdd (s : List String) (x : String) : List String :=
  if x ∈ s then s else s ++ [x]

/-- Adding a batch of elements to the set, one at a time. -/
def setAddAll (s : List String) : List String → List String
  | [] => s
  | x :: xs => setAddAll (setAdd s x) xs

/-- The loop state of `_step4_warn_if_file_count_exceeds_threshold`:
`num_files`, the `not_displayed_files` set, and everything printed so
far. -/
structure WarnState where
  numFiles : Nat
  notDisplayed : List String
  printed : List String

/-- One iteration of the warning loop: add the source's non-directory
entries to the set and the count, then — if the count has reached the
threshold — print (flush) the accumulated set. -/
def warnStep (env : Env) (threshold : Int) (st : WarnState) (p : String) :
    WarnState :=
  let files := affectedOf env p
  let nd := setAddAll st.notDisplayed files
  let n := st.numFiles + files.length
  if threshold ≤ (n : Int) then ⟨n, [], st.printed ++ nd⟩
  else ⟨n, nd, st.printed⟩

/-- The warning loop folded over the sources, left to right. -/
def warnFold (env : Env) (threshold : Int) (sources : List String)
    (st : WarnState) : WarnState :=
  match sources with
  | [] => st
  | p :: rest => warnFold env threshold rest (warnStep env threshold st p)

/-- `Smartmv._step4_warn_if_file_count_exceeds_threshold`: a negative
threshold returns immediately; otherwise the sources are enumerated
(printing batches as the threshold is reached), and if the final count
reached the threshold the user must confirm — declining exits 1. -/
def step4Warn (env : Env) (threshold : Int) (answer : Bool)
    (sources : List String) : Except ExitKind Unit :=
  if threshold < 0 then .ok ()
  else
    let final := warnFold env threshold sources ⟨0, [], []⟩
    if threshold ≤ (final.numFiles : Int) then
      if answer then .ok () else .error .declinedThreshold
    else .ok ()

/-- `Smartmv._step5_execute_mv_commands`: unless the non-interactive
option is set, the user must confirm (declining exits 1 with nothing
executed); then every planned command is run in order — a failing command
is reported but does not stop the loop — and the final exit status is 1
when any command failed, else 0. -/
def step5Execute (env : Env) (nonInteractive confirmAnswer : Bool)
    (cmds : List (String × Cmd)) : Except ExitKind (List Cmd × Nat) :=
  if nonInteractive = false ∧ confirmAnswer = false then
    .error .declinedExecute
  else
    let executed := cmds.map Prod.snd
    let errno := if executed.any (fun c => !env.runSuccess c) then 1 else 0
    .ok (executed, errno)

/-- `Smartmv.main`: resolve the working directory's repository root
(tolerating failure), validate the arguments, then run the five steps in
order.  An `Except.error` is a `sys.exit` before any move command ran; an
`Except.ok (executed, code)` lists every executed command and the final
process exit status. -/
def smartmvMain (env : Env) (args : Args) : Except ExitKind (List Cmd × Nat) :=
  let cwdRepo := env.gitToplevel "."
  match parseArgs args with
  | .error e => .error e
  | .ok _ =>
    match step1ParsePaths env args with
    | .error e => .error e
    | .ok s1 =>
      let cls := step2Classify env cwdRepo s1.destGitRepo s1.sourcePaths
      let cmds := step3GenMvCommands env cwdRepo s1.destGitRepo
        args.verbose args.force cls s1.destPath
      match step4Warn env args.warningThreshold env.confirmThreshold
          s1.sourcePaths with
      | .error e => .error e
      | .ok _ => step5Execute env args.nonInteractive env.confirmExecute cmds

/-- A concrete environment for witnesses: the working directory, the
tracked file `a`, the untracked file `b` and the directory `d` all live in
the repository rooted at `/r`; every spawned command succeeds and the user
answers yes at both prompts. -/
def envW : Env where
  isDir := fun p => p == "d"
  pathExists := fun p => p == "." || p == "a" || p == "b" || p == "d"
  isSymlink := fun _ => false
  gitToplevel := fun p =>
    if p == "." || p == "a" || p == "b" || p == "d" || p == "/r" then
      some "/r"
    else none
  tracked := fun p => p == "a"
  absolute := fun p => "/cwd/" ++ p
  parent := fun _ => "/cwd"
  subPaths := fun _ => []
  runSuccess := fun _ => true
  confirmThreshold := true
  confirmExecute := true

/-- The witness environment with the user declining the threshold
confirmation. -/
def envDecline : Env :=
  { envW with confirmThreshold := false }

/-- The witness environment in which any spawned `git` command fails while
plain `mv` succeeds. -/
def envFail : Env :=
  { envW with runSuccess := fun c => decide (c.headD "" = "mv") }

/-- A concrete two-group command plan for the execution witness. -/
def cmdsW : List (String × Cmd) :=
  [("git mv", ["git", "mv", "-f", "a", "d"]), ("mv", ["mv", "b", "d"])]

theorem cwdIs_true_iff (cwd other : Option String) :
    cwdIs cwd other = true ↔ cwd.isSome = true ∧ cwd = other := by
  simp [cwdIs]

theorem classifyOne_fst_iff (env : Env) (cwd dr : Option String) (p : String) :
    (classifyOne env cwd dr p).1 = true ↔
      env.tracked p = true ∧ ∃ r, env.gitToplevel p = some r ∧ dr = some r := by
  unfold classifyOne
  split
  · rename_i heq
    simp [heq]
  · rename_i repo heq
    by_cases hc : (env.tracked p && decide ((some repo : Option String) = dr)) = true
    · rw [if_pos hc]
      rw [Bool.and_eq_true, decide_eq_true_eq] at hc
      obtain ⟨ht, hd⟩ := hc
      constructor
      · intro _
        exact ⟨ht, repo, heq, hd.symm⟩
      · intro _
        split <;> rfl
    · rw [if_neg hc]
      simp only [Bool.and_eq_true, decide_eq_true_eq] at hc
      constructor
      · intro h
        exact absurd h (by simp)
      · rintro ⟨ht, r, hr, hdr⟩
        rw [heq] at hr
        have hrr : repo = r := by injection hr
        exact absurd ⟨ht, by rw [hrr]; exact hdr.symm⟩ hc

theorem step2_gitmv_eq (env : Env) (cwd dr : Option String)
    (sources : List String) :
    (step2Classify env cwd dr sources).gitmv =
      (sources.filter (fun p => (classifyOne env cwd dr p).1)).map
        (fun p => (classifyOne env cwd dr p).2) := by
  induction sources with
  | nil => rfl
  | cons p rest ih =>
    by_cases hc : (classifyOne env cwd dr p).1 = true
    · simp [step2Classify, hc, List.filter_cons, ih]
    · simp only [Bool.not_eq_true] at hc
      simp [step2Classify, hc, List.filter_cons, ih]

theorem step2_mv_eq (env : Env) (cwd dr : Option String)
    (sources : List String) :
    (step2Classify env cwd dr sources).mv =
      sources.filter (fun p => !(classifyOne env cwd dr p).1) := by
  induction sources with
  | nil => rfl
  | cons p rest ih =>
    by_cases hc : (classifyOne env cwd dr p).1 = true
    · simp [step2Classify, hc, List.filter_cons, ih]
    · simp only [Bool.not_eq_true] at hc
      simp [step2Classify, hc, List.filter_cons, ih]

theorem step2_length (env : Env) (cwd dr : Option String)
    (sources : List String) :
    (step2Classify env cwd dr sources).gitmv.length
      + (step2Classify env cwd dr sources).mv.length = sources.length := by
  induction sources with
  | nil => rfl
  | cons p rest ih =>
    by_cases hc : (classifyOne env cwd dr p).1 = true
    · simp only [step2Classify, hc, if_true]
      simp only [List.length_cons]
      omega
    · simp only [Bool.not_eq_true] at hc
      simp only [step2Classify, hc, Bool.false_eq_true, if_false]
      simp only [List.length_cons]
      omega

theorem gitmv_ne_dest_some (env : Env) (cwd dr : Option String)
    (sources : List String)
    (hne : (step2Classify env cwd dr sources).gitmv ≠ []) :
    ∃ d, dr = some d := by
  rw [step2_gitmv_eq] at hne
  have h1 : (sources.filter (fun p => (classifyOne env cwd dr p).1)) ≠ [] := by
    intro h
    exact hne (by rw [h]; rfl)
  obtain ⟨p, hp⟩ := List.exists_mem_of_ne_nil _ h1
  have hp2 := List.of_mem_filter hp
  rw [classifyOne_fst_iff] at hp2
  obtain ⟨_, r, _, hr⟩ := hp2
  exact ⟨r, hr⟩

/-- Claim C1: a source path is classified into the RepoAware (`git mv`)
group exactly when it is tracked by the backend and its repository root is
a real repository equal to the destination's effective repository root; an
untracked path, a path outside any repository, or a differing (possibly
absent) destination repository all yield the Plain (`mv`) group. -/
theorem claim_C1_classification (env : Env) (cwd dr : Option String)
    (p : String) :
    (classifyOne env cwd dr p).1 = true ↔
      env.tracked p = true ∧ ∃ r, env.gitToplevel p = some r ∧ dr = some r :=
  classifyOne_fst_iff env cwd dr p

/-- Claim C4: the plan partitions the sources — the `git mv` group is
exactly the RepoAware-classified sources in operand order (in recorded
form), the `mv` group is exactly the remaining sources in operand order,
the group sizes add up to the number of sources, and the emitted command
list carries the `git mv` command before the `mv` command with every empty
group omitted. -/
theorem claim_C4_partition (env : Env) (cwd dr : Option String)
    (sources : List String) (verbose force : Bool) (dest : String) :
    (step2Classify env cwd dr sources).gitmv =
        (sources.filter (fun p => (classifyOne env cwd dr p).1)).map
          (fun p => (classifyOne env cwd dr p).2)
    ∧ (step2Classify env cwd dr sources).mv =
        sources.filter (fun p => !(classifyOne env cwd dr p).1)
    ∧ (step2Classify env cwd dr sources).gitmv.length
        + (step2Classify env cwd dr sources).mv.length = sources.length
    ∧ (step3GenMvCommands env cwd dr verbose force
          (step2Classify env cwd dr sources) dest).map Prod.fst =
        (if (step2Classify env cwd dr sources).gitmv.isEmpty then []
         else ["git mv"])
          ++ (if (step2Classify env cwd dr sources).mv.isEmpty then []
              else ["mv"]) := by
  refine ⟨step2_gitmv_eq env cwd dr sources, step2_mv_eq env cwd dr sources,
    step2_length env cwd dr sources, ?_⟩
  by_cases h1 : (step2Classify env cwd dr sources).gitmv.isEmpty
      <;> by_cases h2 : (step2Classify env cwd dr sources).mv.isEmpty
      <;> simp [step3GenMvCommands, h1, h2]

/-- Claim C3: whenever the `git mv` group is non-empty, the destination
repository root is a real root `d`, the built `git mv` command carries the
`-C d` override exactly when the working-directory repository root differs
from the destination's, and its destination argument is the absolute form
of the destination operand unless the working-directory repository root
equals the destination's, in which case the operand is passed as
supplied. -/
theorem claim_C3_repo_override (env : Env) (cwd dr : Option String)
    (sources : List String) (verbose : Bool) (dest : String)
    (hne : (step2Classify env cwd dr sources).gitmv ≠ []) :
    ∃ d, dr = some d ∧
      gitmvCommand env cwd dr verbose
          (step2Classify env cwd dr sources).gitmv dest =
        ["git"] ++ (if cwd = dr then [] else ["-C", d]) ++ ["mv", "-f"]
          ++ (if verbose then ["--verbose"] else [])
          ++ (step2Classify env cwd dr sources).gitmv
          ++ [if cwd = dr then dest else env.absolute dest] := by
  obtain ⟨d, rfl⟩ := gitmv_ne_dest_some env cwd dr sources hne
  refine ⟨d, rfl, ?_⟩
  by_cases hc : cwd = some d
  · simp [gitmvCommand, gitmvBase, cwdIs, hc]
  · simp [gitmvCommand, gitmvBase, cwdIs, hc]

/-- Claim C10: a non-empty `git mv` group forces the destination
repository root to be a real repository, so the fallback command `git mv`
built for an unknown destination repository is unreachable and the base of
every emitted RepoAware command has the shape `git [-C d] mv -f`. -/
theorem claim_C10_fallback_unreachable (env : Env) (cwd dr : Option String)
    (sources : List String)
    (hne : (step2Classify env cwd dr sources).gitmv ≠ []) :
    ∃ d, dr = some d ∧ gitmvBase cwd dr ≠ ["git", "mv"] ∧
      gitmvBase cwd dr =
        ["git"] ++ (if cwd = some d then [] else ["-C", d]) ++ ["mv", "-f"] := by
  obtain ⟨d, rfl⟩ := gitmv_ne_dest_some env cwd dr sources hne
  refine ⟨d, rfl, ?_, ?_⟩ <;> by_cases hc : cwd = some d
      <;> simp [gitmvBase, cwdIs, hc]

/-- Claim C2 counterexample: with every option unset (in particular the
force option), the planned RepoAware command for a tracked source still
contains the `-f` flag, so the force flag does not appear "if and only if
the force option is set". -/
theorem claim_C2_counterexample :
    (⟨["a", "d"], false, false, true, -1⟩ : Args).force = false
    ∧ smartmvMain envW ⟨["a", "d"], false, false, true, -1⟩
        = .ok ([["git", "mv", "-f", "a", "d"]], 0)
    ∧ "-f" ∈ ["git", "mv", "-f", "a", "d"] := by
  refine ⟨rfl, rfl, by decide⟩

/-- Claim C2 (amended): in the RepoAware command built for a non-empty
`git mv` group, the verbose flag `--verbose` appears exactly when the
verbose option is set (assuming no path argument is itself spelled
`--verbose`), while the force flag `-f` is always present regardless of
the force option — the planner hardcodes `-f` for `git mv` and only
translates the force option into the plain `mv` command. -/
theorem claim_C2_flags (env : Env) (cwd dr : Option String)
    (sources : List String) (verbose : Bool) (dest : String)
    (hne : (step2Classify env cwd dr sources).gitmv ≠ [])
    (h1 : "--verbose" ∉ (step2Classify env cwd dr sources).gitmv)
    (h2 : dest ≠ "--verbose")
    (h3 : env.absolute dest ≠ "--verbose")
    (h4 : ∀ d, dr = some d → d ≠ "--verbose") :
    "-f" ∈ gitmvCommand env cwd dr verbose
        (step2Classify env cwd dr sources).gitmv dest
    ∧ ("--verbose" ∈ gitmvCommand env cwd dr verbose
          (step2Classify env cwd dr sources).gitmv dest ↔ verbose = true) := by
  obtain ⟨d, rfl⟩ := gitmv_ne_dest_some env cwd dr sources hne
  have hd : d ≠ "--verbose" := h4 d rfl
  constructor
  · by_cases hc : cwdIs cwd (some d) = true
        <;> simp [gitmvCommand, gitmvBase, hc]
  · constructor
    · intro hm
      by_cases hv : verbose = true
      · exact hv
      · exfalso
        simp only [Bool.not_eq_true] at hv
        simp only [gitmvCommand, gitmvBase, hv, Bool.false_eq_true, if_false,
          List.append_nil, List.mem_append, List.mem_singleton] at hm
        rcases hm with ((hm | hm) | hm) | hm
        · by_cases hc : cwdIs cwd (some d) = true
              <;> simp [hc] at hm
              <;> rcases hm with hm | hm | hm
              <;> simp_all
        · simp at hm
        · exact h1 hm
        · by_cases hc : cwdIs cwd (some d) = true <;> simp [hc] at hm
          · exact h2 hm.symm
          · exact h3 hm.symm
    · intro hv
      by_cases hc : cwdIs cwd (some d) = true
          <;> simp [gitmvCommand, gitmvBase, hc, hv]

/-- Claim C5: when more than one source operand is supplied and the
destination operand is not an existing directory, the run terminates with
the `target '<dest>' is not a directory` error and exit status 1, before
any classification or command execution. -/
theorem claim_C5_invalid_destination (env : Env) (args : Args)
    (hmulti : 1 < args.files.dropLast.length)
    (hdir : env.isDir (args.files.getLastD "") = false) :
    smartmvMain env args = .error (.targetNotDir (args.files.getLastD ""))
    ∧ (ExitKind.targetNotDir (args.files.getLastD "")).code = 1
    ∧ (ExitKind.targetNotDir (args.files.getLastD "")).message
        = exeName ++ ": target \x27" ++ args.files.getLastD ""
            ++ "\x27 is not a directory" := by
  have hlen : args.files.dropLast.length = args.files.length - 1 :=
    List.length_dropLast args.files
  have hp : parseArgs args = .ok () := by
    simp only [parseArgs]
    rw [if_neg (by omega), if_neg (by omega)]
  have hs : step1ParsePaths env args
      = .error (.targetNotDir (args.files.getLastD "")) := by
    simp only [step1ParsePaths]
    rw [if_pos ⟨hmulti, hdir⟩]
  refine ⟨?_, rfl, rfl⟩
  simp only [smartmvMain, hp, hs]

theorem step1_ok (env : Env) (args : Args)
    (hdest : ¬(1 < args.files.dropLast.length
        ∧ env.isDir (args.files.getLastD "") = false))
    (hall : ∀ p ∈ args.files.dropLast,
        env.isSymlink p = true ∨ env.pathExists p = true) :
    step1ParsePaths env args =
      .ok ⟨args.files.dropLast, args.files.getLastD "",
        if env.pathExists (args.files.getLastD "") then
          env.gitToplevel (args.files.getLastD "")
        else
          env.gitToplevel
            (env.parent (env.absolute (args.files.getLastD "")))⟩ := by
  have hf : args.files.dropLast.find?
      (fun p => !(env.isSymlink p || env.pathExists p)) = none := by
    rw [List.find?_eq_none]
    intro x hx
    rcases hall x hx with h | h <;> simp [h]
  simp only [step1ParsePaths, hf]
  rw [if_neg hdest]

/-- Claim C6: whenever some source operand exists neither as a file nor a
directory nor a symbolic link, the run terminates with exit status 1 and
the `cannot stat` message naming a missing source path (the first such
operand); and whenever every source operand is a file, a directory, or a
symbolic link — a symbolic link with a missing target included — the
source-existence validation passes. -/
theorem claim_C6_source_not_found (env : Env) (args : Args)
    (hlen : 2 ≤ args.files.length)
    (hdest : ¬(1 < args.files.dropLast.length
        ∧ env.isDir (args.files.getLastD "") = false)) :
    (∀ p ∈ args.files.dropLast,
        env.isSymlink p = false ∧ env.pathExists p = false →
        ∃ q ∈ args.files.dropLast,
          env.isSymlink q = false ∧ env.pathExists q = false
          ∧ smartmvMain env args = .error (.cannotStat q)
          ∧ (ExitKind.cannotStat q).code = 1
          ∧ (ExitKind.cannotStat q).message
              = exeName ++ ": cannot stat \x27" ++ q
                  ++ "\x27: No such file or directory")
    ∧ ((∀ p ∈ args.files.dropLast,
          env.isSymlink p = true ∨ env.pathExists p = true) →
        ∃ out, step1ParsePaths env args = .ok out) := by
  have hp : parseArgs args = .ok () := by
    simp only [parseArgs]
    rw [if_neg (by omega), if_neg (by omega)]
  constructor
  · intro p hpmem hpmiss
    have hsome : (args.files.dropLast.find?
        (fun q => !(env.isSymlink q || env.pathExists q))).isSome := by
      rw [List.find?_isSome]
      exact ⟨p, hpmem, by simp [hpmiss.1, hpmiss.2]⟩
    obtain ⟨q, hq⟩ := Option.isSome_iff_exists.mp hsome
    have hqpred := List.find?_some hq
    simp only [Bool.not_eq_eq_eq_not, Bool.not_true, Bool.or_eq_false_iff]
      at hqpred
    have hqmem := List.mem_of_find?_eq_some hq
    refine ⟨q, hqmem, hqpred.1, hqpred.2, ?_, rfl, rfl⟩
    have hs : step1ParsePaths env args = .error (.cannotStat q) := by
      simp only [step1ParsePaths, hq]
      rw [if_neg hdest]
    simp only [smartmvMain, hp, hs]
  · intro hall
    exact ⟨_, step1_ok env args hdest hall⟩

/-- Claim C7 counterexample: invoked with zero positional operands, the
argument parser itself rejects the command line — a usage error with exit
status 2, not 1, whose message does not name a missing destination
operand — refuting the claim that every invocation with fewer than two
operands exits with status 1 naming the missing destination. -/
theorem claim_C7_counterexample :
    smartmvMain envW ⟨[], false, false, false, -1⟩
        = .error .parserMissingArgs
    ∧ ExitKind.parserMissingArgs.code = 2
    ∧ ExitKind.parserMissingArgs.code ≠ 1 := by
  exact ⟨rfl, rfl, by decide⟩

/-- Claim C7 (amended): with exactly one positional operand the run is a
fatal usage error with exit status 1 and a message naming the missing
destination operand after that operand; with zero positional operands the
argument parser rejects the invocation with a usage error and exit
status 2 (argparse semantics for a required `nargs="+"` argument). -/
theorem claim_C7_usage (env : Env) (args : Args) :
    (args.files = [] →
        smartmvMain env args = .error .parserMissingArgs
        ∧ ExitKind.parserMissingArgs.code = 2)
    ∧ (∀ f, args.files = [f] →
        smartmvMain env args = .error (.missingDest f)
        ∧ (ExitKind.missingDest f).code = 1
        ∧ (ExitKind.missingDest f).message
            = exeName ++ ": missing destination file operand after \x27"
                ++ f ++ "\x27") := by
  constructor
  · intro h
    refine ⟨?_, rfl⟩
    simp [smartmvMain, parseArgs, h]
  · intro f h
    refine ⟨?_, rfl, rfl⟩
    simp [smartmvMain, parseArgs, h]

theorem warnStep_numFiles (env : Env) (t : Int) (st : WarnState) (p : String) :
    (warnStep env t st p).numFiles = st.numFiles + (affectedOf env p).length := by
  simp only [warnStep]
  split <;> rfl

theorem warnStep_notDisplayed (env : Env) (t : Int) (st : WarnState)
    (p : String) (h : t ≤ ((warnStep env t st p).numFiles : Int)) :
    (warnStep env t st p).notDisplayed = [] := by
  by_cases hc : t ≤ ((st.numFiles + (affectedOf env p).length : Nat) : Int)
  · simp only [warnStep]
    rw [if_pos hc]
  · exfalso
    apply hc
    rw [warnStep_numFiles] at h
    exact h

theorem warnFold_numFiles (env : Env) (t : Int) (l : List String) :
    ∀ st : WarnState, (warnFold env t l st).numFiles
      = st.numFiles + (affectedFiles env l).length := by
  induction l with
  | nil =>
    intro st
    simp [warnFold, affectedFiles]
  | cons p rest ih =>
    intro st
    simp only [warnFold, affectedFiles, ih, warnStep_numFiles,
      List.length_append]
    omega

theorem warnFold_notDisplayed (env : Env) (t : Int) (l : List String) :
    ∀ st : WarnState, (t ≤ (st.numFiles : Int) → st.notDisplayed = []) →
      t ≤ ((warnFold env t l st).numFiles : Int) →
      (warnFold env t l st).notDisplayed = [] := by
  induction l with
  | nil =>
    intro st hinv h
    exact hinv h
  | cons p rest ih =>
    intro st _ h
    exact ih (warnStep env t st p) (warnStep_notDisplayed env t st p) h

theorem mem_setAdd (s : List String) (x q : String) :
    q ∈ setAdd s x ↔ q ∈ s ∨ q = x := by
  unfold setAdd
  by_cases h : x ∈ s
  · rw [if_pos h]
    constructor
    · exact Or.inl
    · rintro (hq | rfl)
      · exact hq
      · exact h
  · rw [if_neg h]
    simp [List.mem_append]

theorem mem_setAddAll (q : String) (xs : List String) :
    ∀ s : List String, q ∈ setAddAll s xs ↔ q ∈ s ∨ q ∈ xs := by
  induction xs with
  | nil =>
    intro s
    simp [setAddAll]
  | cons x xs ih =>
    intro s
    rw [setAddAll, ih, mem_setAdd]
    simp [List.mem_cons]
    tauto

theorem warnFold_union (env : Env) (t : Int) (q : String) (l : List String) :
    ∀ st : WarnState,
      (q ∈ (warnFold env t l st).printed
          ∨ q ∈ (warnFold env t l st).notDisplayed)
        ↔ (q ∈ st.printed ∨ q ∈ st.notDisplayed ∨ q ∈ affectedFiles env l) := by
  induction l with
  | nil =>
    intro st
    simp [warnFold, affectedFiles]
  | cons p rest ih =>
    intro st
    rw [warnFold, ih, affectedFiles]
    simp only [warnStep]
    split
    · simp only [List.not_mem_nil, List.mem_append, mem_setAddAll]
      tauto
    · simp only [List.mem_append, mem_setAddAll]
      tauto

/-- Claim C8: a negative warning threshold disables the whole step (it
passes without consulting the confirmation answer); a non-negative one
makes the step count the non-directory entries under all source operands
(directories expanded recursively), and when that count reaches the
threshold every affected path is printed and the run continues only on a
positive confirmation — declining terminates the run with exit status 1
before any move command is executed, while a count below the threshold
asks nothing. -/
theorem claim_C8_threshold (env : Env) (t : Int) (sources : List String) :
    (t < 0 → ∀ a, step4Warn env t a sources = .ok ())
    ∧ (0 ≤ t →
        (warnFold env t sources ⟨0, [], []⟩).numFiles
            = (affectedFiles env sources).length
        ∧ (t ≤ ((affectedFiles env sources).length : Int) →
            (∀ q, q ∈ (warnFold env t sources ⟨0, [], []⟩).printed
                ↔ q ∈ affectedFiles env sources)
            ∧ step4Warn env t false sources = .error .declinedThreshold
            ∧ ExitKind.declinedThreshold.code = 1
            ∧ step4Warn env t true sources = .ok ())
        ∧ (((affectedFiles env sources).length : Int) < t →
            ∀ a, step4Warn env t a sources = .ok ()))
    ∧ (∀ args : Args, 2 ≤ args.files.length →
        args.warningThreshold = t →
        args.files.dropLast = sources →
        ¬(1 < args.files.dropLast.length
            ∧ env.isDir (args.files.getLastD "") = false) →
        (∀ p ∈ args.files.dropLast,
            env.isSymlink p = true ∨ env.pathExists p = true) →
        0 ≤ t → t ≤ ((affectedFiles env sources).length : Int) →
        env.confirmThreshold = false →
        smartmvMain env args = .error .declinedThreshold) := by
  have hnum : (warnFold env t sources ⟨0, [], []⟩).numFiles
      = (affectedFiles env sources).length := by
    rw [warnFold_numFiles]
    simp
  refine ⟨?_, ?_, ?_⟩
  · intro hneg a
    simp only [step4Warn]
    rw [if_pos hneg]
  · intro hpos
    refine ⟨hnum, ?_, ?_⟩
    · intro hge
      have hge2 : t ≤ ((warnFold env t sources ⟨0, [], []⟩).numFiles : Int) := by
        rw [hnum]; exact hge
      have hnd : (warnFold env t sources ⟨0, [], []⟩).notDisplayed = [] :=
        warnFold_notDisplayed env t sources ⟨0, [], []⟩ (fun _ => rfl) hge2
      refine ⟨?_, ?_, rfl, ?_⟩
      · intro q
        have hu := warnFold_union env t q sources ⟨0, [], []⟩
        rw [hnd] at hu
        simpa using hu
      · simp only [step4Warn]
        rw [if_neg (by omega), if_pos hge2]
        rfl
      · simp only [step4Warn]
        rw [if_neg (by omega), if_pos hge2]
        rfl
    · intro hlt a
      simp only [step4Warn]
      rw [if_neg (by omega), if_neg (by rw [hnum]; omega)]
  · intro args hlen hthr hsrc hdest hall hpos hge hans
    have hp : parseArgs args = .ok () := by
      simp only [parseArgs]
      rw [if_neg (by omega), if_neg (by omega)]
    have hs1 := step1_ok env args hdest hall
    have hge2 : t ≤ ((warnFold env t sources ⟨0, [], []⟩).numFiles : Int) := by
      rw [hnum]; exact hge
    have h4 : step4Warn env t env.confirmThreshold sources
        = .error .declinedThreshold := by
      simp only [step4Warn, hans]
      rw [if_neg (by omega), if_pos hge2]
      rfl
    simp only [smartmvMain, hp, hs1, hthr, hsrc, h4]

/-- Claim C9: once execution is reached (the non-interactive option set or
the confirmation accepted), every planned command group is executed in
order — a failing command does not prevent the remaining groups from
running — and the overall process exit status is 1 exactly when at least
one executed command failed, and 0 otherwise. -/
theorem claim_C9_execution (env : Env) (ni ca : Bool)
    (cmds : List (String × Cmd)) (h : ni = true ∨ ca = true) :
    step5Execute env ni ca cmds
      = .ok (cmds.map Prod.snd,
          if (cmds.map Prod.snd).any (fun c => !env.runSuccess c) then 1
          else 0)
    ∧ ((if (cmds.map Prod.snd).any (fun c => !env.runSuccess c) then 1
          else (0 : Nat)) ≠ 0
        ↔ ∃ c ∈ cmds.map Prod.snd, env.runSuccess c = false) := by
  have hni : ¬(ni = false ∧ ca = false) := by
    rcases h with h | h <;> simp [h]
  constructor
  · simp only [step5Execute]
    rw [if_neg hni]
  · by_cases ha : (cmds.map Prod.snd).any (fun c => !env.runSuccess c) = true
    · rw [if_pos ha]
      rw [List.any_eq_true] at ha
      obtain ⟨c, hc1, hc2⟩ := ha
      constructor
      · intro _
        exact ⟨c, hc1, by simpa using hc2⟩
      · intro _
        omega
    · rw [if_neg ha]
      constructor
      · intro h0
        exact absurd rfl h0
      · rintro ⟨c, hc, hfail⟩
        exact absurd (List.any_eq_true.mpr ⟨c, hc, by simp [hfail]⟩) ha

/-- Witness for claim C2's amended theorem at a concrete configuration:
force is irrelevant, yet `-f` is in the command. -/
theorem claim_C2_flags_witness :
    "-f" ∈ gitmvCommand envW (some "/r") (some "/r") false
        (step2Classify envW (some "/r") (some "/r") ["a"]).gitmv "d" :=
  (claim_C2_flags envW (some "/r") (some "/r") ["a"] false "d"
    (by decide) (by decide) (by decide) (by decide)
    (by
      intro d hd
      injection hd with h
      subst h
      decide)).1

/-- Witness for claim C3 at a concrete configuration: same repository
everywhere, so no `-C` override and the destination as supplied. -/
theorem claim_C3_witness :
    gitmvCommand envW (some "/r") (some "/r") false
        (step2Classify envW (some "/r") (some "/r") ["a"]).gitmv "d"
      = ["git", "mv", "-f", "a", "d"] := by
  obtain ⟨d, hd, heq⟩ :=
    claim_C3_repo_override envW (some "/r") (some "/r") ["a"] false "d"
      (by decide)
  rw [heq]
  rfl

/-- Witness for claim C5 at a concrete configuration: two sources and a
non-directory destination. -/
theorem claim_C5_witness :
    smartmvMain envW ⟨["a", "b", "x"], false, false, true, -1⟩
      = .error (.targetNotDir "x") :=
  (claim_C5_invalid_destination envW ⟨["a", "b", "x"], false, false, true, -1⟩
    (by decide) (by decide)).1

/-- Witness for claim C6 at a concrete configuration: the single source
`ghost` does not exist. -/
theorem claim_C6_witness :
    smartmvMain envW ⟨["ghost", "d"], false, false, true, -1⟩
      = .error (.cannotStat "ghost") := by
  obtain ⟨q, hqmem, _, _, hmain, _, _⟩ :=
    (claim_C6_source_not_found envW ⟨["ghost", "d"], false, false, true, -1⟩
      (by decide) (by decide)).1 "ghost" (by decide) (by decide)
  have hq : q = "ghost" := by
    simpa using hqmem
  rw [hq] at hmain
  exact hmain

/-- Witness for claim C7's amended theorem at a concrete single-operand
invocation. -/
theorem claim_C7_witness :
    smartmvMain envW ⟨["a"], false, false, false, -1⟩
      = .error (.missingDest "a") :=
  ((claim_C7_usage envW ⟨["a"], false, false, false, -1⟩).2 "a" rfl).1

/-- Witness for claim C8 at a concrete configuration: threshold 0, one
affected file, confirmation declined, run aborted before execution. -/
theorem claim_C8_witness :
    smartmvMain envDecline ⟨["a", "d"], false, false, true, 0⟩
      = .error .declinedThreshold :=
  (claim_C8_threshold envDecline 0 ["a"]).2.2
    ⟨["a", "d"], false, false, true, 0⟩
    (by decide) rfl rfl (by decide) (by decide) (by decide) (by decide) rfl

/-- Witness for claim C9 at a concrete plan in which the `git mv` group
fails and the `mv` group still runs, with final exit status 1. -/
theorem claim_C9_witness :
    step5Execute envFail true true cmdsW
      = .ok ([["git", "mv", "-f", "a", "d"], ["mv", "b", "d"]], 1) := by
  rw [(claim_C9_execution envFail true true cmdsW (Or.inl rfl)).1]
  rfl

/-- Witness for claim C10 at a concrete configuration: the fallback
`git mv` base is not what gets emitted. -/
theorem claim_C10_witness :
    gitmvBase (some "/r" : Option String) (some "/r") ≠ ["git", "mv"] := by
  obtain ⟨d, _, hne2, _⟩ :=
    claim_C10_fallback_unreachable envW (some "/r") (some "/r") ["a"]
      (by decide)
  exact hne2

end GitSmartmv
